import Mathlib

/-!
Verification development for the pyvaru data-validation engine.

The definitions below are a shallow embedding of the code in
pyvaru/__init__.py: ValidationRule (the abstract leaf rule), RuleGroup
(the composite rule with dynamic child instantiation), ValidationResult
(the per-label error accumulator), Validator.validate (the orchestration
loop with its two exception boundaries), the scoped-guard protocol
(enter / exit), and the in-place bitwise negation operator.

Python exceptions are modelled by the PyErr type; a fallible Python call
is a Lean function returning Except PyErr. Python dictionaries holding
the error report are modelled as insertion-ordered association lists,
matching the insertion-order semantics of dict. Mutation of an object
attribute (RuleGroup sets a failed-rule attribute during apply, and the
negation operator overwrites the apply attribute of the receiver) is
modelled by returning the updated object, and, for the negation claim,
by an explicit store of rule objects indexed by address.
-/

namespace Pyvaru

/-- Exceptions that the embedded code can raise or catch. The carried
string is the Python str(e) rendering of the exception: for
InvalidRuleGroupException this is the message passed to its constructor,
for TypeError the interpreter message, and for any other exception the
text produced by str. -/
inductive PyErr where
  | invalidRuleGroupException (message : String)
  | typeError (message : String)
  | other (text : String)
  deriving DecidableEq

/-- Models the Python str(e) call used by annotate_exception. -/
def pyStr : PyErr → String
  | PyErr.invalidRuleGroupException m => m
  | PyErr.typeError m => m
  | PyErr.other t => t

/-- Outcome of one call to an apply method: either a returned boolean or
a raised exception. -/
inductive RApply where
  | ret (b : Bool)
  | exn (e : PyErr)
  deriving DecidableEq

/-- Models the Python expression a or b on an optional string: None and
the empty string are falsy, so both fall back to the default. -/
def pyOrStr : Option String → String → String
  | Option.none, d => d
  | Option.some s, d => if s = "" then d else s

/-- Class attribute default_error_message of ValidationRule, inherited
unchanged by RuleGroup. -/
def base_default_error_message : String := "Data is invalid."

/-- A concrete leaf rule object: the fields set by the ValidationRule
constructor, the default_error_message class attribute of its concrete
class, and the behaviour of its apply method. -/
structure ValidationRule where
  label : String
  custom_error_message : Option String
  stop_if_invalid : Bool
  default_error_message : String
  apply : RApply
  deriving DecidableEq

/-- get_error_message of ValidationRule: the custom message if provided
(and truthy), otherwise the default one. -/
def ValidationRule.get_error_message (r : ValidationRule) : String :=
  pyOrStr r.custom_error_message r.default_error_message

/-- The object returned by the bitwise inversion operator on a rule: the
apply attribute is replaced by a closure returning the negation of the
original apply call (a raise inside the original apply propagates
through the wrapper); every other attribute is untouched. -/
def ValidationRule.invert (r : ValidationRule) : ValidationRule :=
  { r with
    apply :=
      match r.apply with
      | RApply.ret b => RApply.ret (!b)
      | RApply.exn e => RApply.exn e }

/-- The keyword-argument dictionary of a rule specification inside a
RuleGroup: the recognised constructor keywords, each optional, plus any
extra class-specific options. The base configuration built by
get_configured_rule supplies apply_to and label; an options dictionary
merged over it may override them. -/
structure Config (α : Type) where
  apply_to : Option α
  label : Option String
  error_message : Option String
  stop_if_invalid : Option Bool
  extra : List (String × String)

/-- The empty options dictionary: a specification given as a bare class
uses only the base configuration. -/
def Config.empty {α : Type} : Config α :=
  { apply_to := Option.none
  , label := Option.none
  , error_message := Option.none
  , stop_if_invalid := Option.none
  , extra := [] }

/-- A concrete subclass of ValidationRule, as used by the dynamic
instantiation in RuleGroup: its class-level default error message and
the behaviour of the apply method of an instance constructed for a given
target and options. -/
structure RuleClass (α : Type) where
  run : α → Config α → RApply
  default_error_message : String

/-- Models rule_class(**rule_config): the base configuration carries the
apply_to and label of the group, the options dictionary may override
them and supply error_message and stop_if_invalid; constructor defaults
apply otherwise. -/
def RuleClass.instantiate {α : Type} (c : RuleClass α) (apply_to : α)
    (label : String) (cfg : Config α) : ValidationRule :=
  { label := cfg.label.getD label
  , custom_error_message := cfg.error_message
  , stop_if_invalid := cfg.stop_if_invalid.getD false
  , default_error_message := c.default_error_message
  , apply := c.run (cfg.apply_to.getD apply_to) cfg }

/-- An element of a list or tuple used as a rule specification: a class
that subclasses ValidationRule, a class that does not, a dictionary, or
any other value (None included). The distinction matters because
issubclass raises TypeError on a non-class argument while isinstance
with dict accepts any value. -/
inductive SeqElem (α : Type) where
  | ruleCls (c : RuleClass α)
  | otherCls
  | dict (cfg : Config α)
  | otherVal

/-- One entry of the rules list of a RuleGroup, as a Python runtime
value: None, a ValidationRule subclass, a class not subclassing
ValidationRule, a non-class non-sequence value, or a list or tuple of
values. The name fields carry the str rendering used in error texts. -/
inductive SpecEntry (α : Type) where
  | none
  | cls (c : RuleClass α)
  | nonRuleCls (nm : String)
  | nonClass (nm : String)
  | seq (elems : List (SeqElem α))

/-- Message of the InvalidRuleGroupException raised for a list or tuple
specification of the wrong shape. -/
def rule_group_format_message : String :=
  "Provided rule configuration does not respect the format: (rule_class: ValidationRule, rule_config: dict)"

/-- Message of the InvalidRuleGroupException raised for a specification
that is neither a sequence nor a ValidationRule subclass; the argument
is the str rendering of the offending entry. -/
def expected_rule_message (entry_text : String) : String :=
  "Expected type \"ValidationRule\", got \"" ++ entry_text ++ "\" instead."

/-- Interpreter message of the TypeError raised by issubclass when its
first argument is not a class. -/
def issubclass_type_error_message : String :=
  "issubclass() arg 1 must be a class"

/-- A RuleGroup object: the ValidationRule constructor fields, the list
of child rule specifications, and the failed-rule attribute recorded by
apply. -/
structure RuleGroup (α : Type) where
  apply_to : α
  label : String
  rules : List (SpecEntry α)
  custom_error_message : Option String
  stop_if_invalid : Bool
  failed_rule : Option ValidationRule

/-- Models RuleGroup._get_configured_rule. For a list or tuple entry the
checks run in source order with Python short-circuiting: a length other
than two raises the format error before issubclass is consulted; for a
two-element sequence, issubclass(entry[0], ValidationRule) raises
TypeError when entry[0] is not a class, returns False (hence the format
error) when it is a non-conforming class, and only then is entry[1]
checked with isinstance(entry[1], dict). A bare entry is instantiated if
it is a ValidationRule subclass; None and non-conforming classes raise
the dedicated exception; a non-class entry makes issubclass raise
TypeError. -/
def RuleGroup.get_configured_rule {α : Type} (g : RuleGroup α) :
    SpecEntry α → Except PyErr ValidationRule
  | SpecEntry.seq [e0, e1] =>
      match e0 with
      | SeqElem.dict _ => Except.error (PyErr.typeError issubclass_type_error_message)
      | SeqElem.otherVal => Except.error (PyErr.typeError issubclass_type_error_message)
      | SeqElem.otherCls =>
          Except.error (PyErr.invalidRuleGroupException rule_group_format_message)
      | SeqElem.ruleCls c =>
          match e1 with
          | SeqElem.dict cfg => Except.ok (c.instantiate g.apply_to g.label cfg)
          | _ => Except.error (PyErr.invalidRuleGroupException rule_group_format_message)
  | SpecEntry.seq _ =>
      Except.error (PyErr.invalidRuleGroupException rule_group_format_message)
  | SpecEntry.none =>
      Except.error (PyErr.invalidRuleGroupException (expected_rule_message "None"))
  | SpecEntry.cls c => Except.ok (c.instantiate g.apply_to g.label Config.empty)
  | SpecEntry.nonRuleCls nm =>
      Except.error (PyErr.invalidRuleGroupException (expected_rule_message nm))
  | SpecEntry.nonClass _ =>
      Except.error (PyErr.typeError issubclass_type_error_message)

/-- The loop of RuleGroup.apply over a list of specifications: each
entry is resolved outside the try block, so a resolution exception
propagates; a resolved child that returns False or raises is recorded in
the failed-rule attribute and the group returns False at once; if every
child passes the group returns True with its state unchanged. -/
def RuleGroup.applyAux {α : Type} (g : RuleGroup α) :
    List (SpecEntry α) → Except PyErr (Bool × RuleGroup α)
  | [] => Except.ok (true, g)
  | e :: rest =>
      match g.get_configured_rule e with
      | Except.error err => Except.error err
      | Except.ok r =>
          match r.apply with
          | RApply.ret true => g.applyAux rest
          | _ => Except.ok (false, { g with failed_rule := Option.some r })

/-- Models RuleGroup.apply, returning the boolean outcome together with
the group object as mutated by the call. -/
def RuleGroup.applyE {α : Type} (g : RuleGroup α) : Except PyErr (Bool × RuleGroup α) :=
  g.applyAux g.rules

/-- Models RuleGroup.get_error_message: delegate to the failed child if
one is recorded, otherwise fall back to the inherited behaviour (custom
message or the base default). -/
def RuleGroup.get_error_message {α : Type} (g : RuleGroup α) : String :=
  match g.failed_rule with
  | Option.some r => r.get_error_message
  | Option.none => pyOrStr g.custom_error_message base_default_error_message

/-- A rule object as seen by the validator loop: either a leaf
ValidationRule instance or a RuleGroup instance. -/
inductive VRule (α : Type) where
  | leaf (r : ValidationRule)
  | group (g : RuleGroup α)

/-- The label attribute of a rule object. -/
def VRule.label {α : Type} : VRule α → String
  | VRule.leaf r => r.label
  | VRule.group g => g.label

/-- The stop_if_invalid attribute of a rule object. -/
def VRule.stop_if_invalid {α : Type} : VRule α → Bool
  | VRule.leaf r => r.stop_if_invalid
  | VRule.group g => g.stop_if_invalid

/-- get_error_message dispatched through the rule hierarchy. -/
def VRule.get_error_message {α : Type} : VRule α → String
  | VRule.leaf r => r.get_error_message
  | VRule.group g => g.get_error_message

/-- One call to apply on a rule object: the boolean outcome together
with the object as mutated by the call, or a raised exception. For a
leaf rule the object is unchanged; for a group the failed-rule attribute
may have been set; a configuration error inside a group propagates. -/
def VRule.applyE {α : Type} : VRule α → Except PyErr (Bool × VRule α)
  | VRule.leaf r =>
      match r.apply with
      | RApply.ret b => Except.ok (b, VRule.leaf r)
      | RApply.exn e => Except.error e
  | VRule.group g =>
      match g.applyE with
      | Except.error e => Except.error e
      | Except.ok (b, gMut) => Except.ok (b, VRule.group gMut)

/-- The error report of one validation pass: a mapping from field label
to the ordered list of collected messages, modelled as an association
list in dict insertion order. -/
structure ValidationResult where
  errors : List (String × List String)
  deriving DecidableEq

/-- Models the annotation pattern of ValidationResult: if the key is
absent a fresh empty list is created (appearing at the end, in dict
insertion order), then the message is appended to the list of the
key. -/
def addMsg : List (String × List String) → String → String → List (String × List String)
  | [], key, msg => [(key, [msg])]
  | (k, ms) :: rest, key, msg =>
      if k = key then (k, ms ++ [msg]) :: rest
      else (k, ms) :: addMsg rest key msg

/-- Models ValidationResult.annotate_rule_violation: append the error
message of the rule under its label. -/
def ValidationResult.annotate_rule_violation {α : Type}
    (res : ValidationResult) (rule : VRule α) : ValidationResult :=
  ⟨addMsg res.errors rule.label rule.get_error_message⟩

/-- Models ValidationResult.annotate_exception: append str(e) under the
label of the originating rule, or under the sentinel key when no rule is
associated (a failure while building the rule list). -/
def ValidationResult.annotate_exception {α : Type} (res : ValidationResult)
    (e : PyErr) (rule : Option (VRule α)) : ValidationResult :=
  match rule with
  | Option.some r => ⟨addMsg res.errors r.label (pyStr e)⟩
  | Option.none => ⟨addMsg res.errors "get_rules" (pyStr e)⟩

/-- Models ValidationResult.is_successful: no labels are present. -/
def ValidationResult.is_successful (res : ValidationResult) : Bool :=
  res.errors.isEmpty

/-- Reads the message list stored under a label (empty when the label is
absent), the observer used to state per-label properties. -/
def lookupMsgs : List (String × List String) → String → List String
  | [], _ => []
  | (k, ms) :: rest, l => if k = l then ms else lookupMsgs rest l

/-- The inner loop of Validator.validate: apply each rule inside the
per-rule exception boundary; a False return is annotated as a rule
violation and stops the loop when the rule asks for it; a raised
exception is annotated under the label of the rule and the loop
continues (the stop_if_invalid flag is not consulted on this path). -/
def runRules {α : Type} : List (VRule α) → ValidationResult → ValidationResult
  | [], res => res
  | r :: rest, res =>
      match r.applyE with
      | Except.ok (true, _) => runRules rest res
      | Except.ok (false, rMut) =>
          let annotated := res.annotate_rule_violation rMut
          if rMut.stop_if_invalid then annotated else runRules rest annotated
      | Except.error e => runRules rest (res.annotate_exception e (Option.some r))

/-- Models Validator.validate given the outcome of the get_rules call:
a raise while building the rule list is annotated under the sentinel key
and the pass ends with no rule evaluated; otherwise the rules run in
order starting from an empty result. -/
def validateRules {α : Type} (built : Except PyErr (List (VRule α))) : ValidationResult :=
  match built with
  | Except.error e => ValidationResult.annotate_exception ⟨[]⟩ e (Option.none : Option (VRule α))
  | Except.ok rules => runRules rules ⟨[]⟩

/-- A concrete validator: the outcome of its get_rules method (either
the built rule list or the exception the factory raises). -/
structure Validator (α : Type) where
  get_rules : Except PyErr (List (VRule α))

/-- Models Validator.validate on a validator object. -/
def Validator.validate {α : Type} (v : Validator α) : ValidationResult :=
  validateRules v.get_rules

/-- The ValidationException raised by the scoped-guard protocol: it
carries the validation result and a human message. -/
structure ValidationException where
  validation_result : ValidationResult
  message : String
  deriving DecidableEq

/-- The result of entering a validator used as a scoped guard: either
the validator object itself is yielded, or a ValidationException is
raised. -/
inductive EnterOutcome (α : Type) where
  | entered (v : Validator α)
  | raised (e : ValidationException)

/-- Models Validator.__enter__: run validate, raise
ValidationException(validation) with the default message when the result
is unsuccessful, otherwise yield the validator itself. -/
def Validator.enter {α : Type} (v : Validator α) : EnterOutcome α :=
  let validation := v.validate
  if validation.is_successful then EnterOutcome.entered v
  else EnterOutcome.raised ⟨validation, "Data did not validate."⟩

/-- Models Validator.__exit__: no action is performed. -/
def Validator.exit {α : Type} (_v : Validator α) : Unit := ()

/-- A with-block using a validator as a scoped guard: the guarded block
runs only when entering succeeded, and the exit hook runs after the
block; a raised ValidationException is propagated to the caller. -/
def withGuard {α β : Type} (v : Validator α) (block : Validator α → β) :
    Except ValidationException β :=
  match v.enter with
  | EnterOutcome.raised e => Except.error e
  | EnterOutcome.entered vIn =>
      let out := block vIn
      let _ := vIn.exit
      Except.ok out

/-- A store of leaf rule objects indexed by address, used to express the
in-place nature of the negation operator. -/
abbrev RuleStore : Type := List ValidationRule

/-- Models the bitwise inversion operator applied to the rule object at
an address: the apply attribute of that very object is overwritten with
the negating wrapper and the same object (address) is returned. An
address outside the store leaves it unchanged. -/
def invert_in_place (store : RuleStore) (i : Nat) : RuleStore × Nat :=
  match store[i]? with
  | Option.some r => (store.set i r.invert, i)
  | Option.none => (store, i)

/-! Observers used to state the claims. -/

/-- The rule object as it stands after its apply call (identical to the
object before the call when apply raised or left it unchanged). -/
def VRule.postApply {α : Type} (r : VRule α) : VRule α :=
  match r.applyE with
  | Except.ok (_, rMut) => rMut
  | Except.error _ => r

/-- True when the apply call of the rule returns True. -/
def passesB {α : Type} (r : VRule α) : Bool :=
  match r.applyE with
  | Except.ok (true, _) => true
  | _ => false

/-- True when the apply call of the rule returns False. -/
def failsB {α : Type} (r : VRule α) : Bool :=
  match r.applyE with
  | Except.ok (false, _) => true
  | _ => false

/-- True when the apply call of the rule raises. -/
def raisesB {α : Type} (r : VRule α) : Bool :=
  match r.applyE with
  | Except.error _ => true
  | _ => false

/-- The prefix of the rule list that the validator loop actually
evaluates: everything up to and including the first rule that fails by
return value with the stop flag set; a raising rule never cuts the
list short. -/
def evaluatedRules {α : Type} : List (VRule α) → List (VRule α)
  | [] => []
  | r :: rest =>
      match r.applyE with
      | Except.ok (true, _) => r :: evaluatedRules rest
      | Except.ok (false, rMut) =>
          if rMut.stop_if_invalid then [r] else r :: evaluatedRules rest
      | Except.error _ => r :: evaluatedRules rest

/-- The label and message that the validator records for one evaluated
rule, if any: nothing for a passing rule, the post-apply label and error
message for a failing one, the label and exception text for a raising
one. -/
def violationEntry {α : Type} (r : VRule α) : Option (String × String) :=
  match r.applyE with
  | Except.ok (true, _) => Option.none
  | Except.ok (false, rMut) => Option.some (rMut.label, rMut.get_error_message)
  | Except.error e => Option.some (r.label, pyStr e)

/-- The messages recorded under one label by a list of evaluated rules,
in evaluation order. -/
def recordedMsgs {α : Type} (l : String) : List (VRule α) → List String
  | [] => []
  | r :: rest =>
      (match violationEntry r with
       | Option.some (k, m) => if k = l then [m] else []
       | Option.none => []) ++ recordedMsgs l rest

/-! Structural lemmas about the error accumulator and the loop. -/

lemma lookupMsgs_addMsg (errs : List (String × List String)) (key msg l : String) :
    lookupMsgs (addMsg errs key msg) l =
      if key = l then lookupMsgs errs l ++ [msg] else lookupMsgs errs l := by
  induction errs with
  | nil =>
      by_cases h : key = l <;> simp [addMsg, lookupMsgs, h]
  | cons p rest ih =>
      obtain ⟨k, ms⟩ := p
      by_cases hk : k = key
      · subst hk
        by_cases hl : k = l <;> simp [addMsg, lookupMsgs, hl]
      · by_cases hl : k = l
        · subst hl
          have : ¬ key = k := fun h => hk h.symm
          simp [addMsg, lookupMsgs, hk, this]
        · simp [addMsg, lookupMsgs, hk, hl, ih]

lemma addMsg_ne_nil (errs : List (String × List String)) (key msg : String) :
    addMsg errs key msg ≠ [] := by
  cases errs with
  | nil => simp [addMsg]
  | cons p rest =>
      obtain ⟨k, ms⟩ := p
      by_cases h : k = key <;> simp [addMsg, h]

lemma runRules_errors_ne_nil {α : Type} (rules : List (VRule α))
    (res : ValidationResult) (h : res.errors ≠ []) :
    (runRules rules res).errors ≠ [] := by
  induction rules generalizing res with
  | nil => simpa [runRules] using h
  | cons r rest ih =>
      cases happ : r.applyE with
      | error e =>
          simp only [runRules, happ]
          exact ih _ (addMsg_ne_nil _ _ _)
      | ok p =>
          obtain ⟨b, rMut⟩ := p
          cases b with
          | true =>
              simp only [runRules, happ]
              exact ih _ h
          | false =>
              simp only [runRules, happ]
              by_cases hstop : rMut.stop_if_invalid
              · simp only [hstop, if_true]
                exact addMsg_ne_nil _ _ _
              · simp only [hstop, if_false]
                exact ih _ (addMsg_ne_nil _ _ _)

lemma runRules_lookup {α : Type} (rules : List (VRule α))
    (res : ValidationResult) (l : String) :
    lookupMsgs (runRules rules res).errors l =
      lookupMsgs res.errors l ++ recordedMsgs l (evaluatedRules rules) := by
  induction rules generalizing res with
  | nil => simp [runRules, evaluatedRules, recordedMsgs]
  | cons r rest ih =>
      cases happ : r.applyE with
      | error e =>
          simp only [runRules, happ, evaluatedRules, recordedMsgs,
            violationEntry, ValidationResult.annotate_exception]
          rw [ih, lookupMsgs_addMsg]
          by_cases h : r.label = l <;> simp [h]
      | ok p =>
          obtain ⟨b, rMut⟩ := p
          cases b with
          | true =>
              simp only [runRules, happ, evaluatedRules, recordedMsgs, violationEntry]
              rw [ih]
              simp
          | false =>
              cases hstop : rMut.stop_if_invalid with
              | true =>
                  simp only [runRules, happ, evaluatedRules, recordedMsgs,
                    violationEntry, ValidationResult.annotate_rule_violation, hstop,
                    if_true]
                  rw [lookupMsgs_addMsg]
                  by_cases h : rMut.label = l <;> simp [h]
              | false =>
                  simp only [runRules, happ, evaluatedRules, recordedMsgs,
                    violationEntry, ValidationResult.annotate_rule_violation, hstop,
                    Bool.false_eq_true, if_false]
                  rw [ih, lookupMsgs_addMsg]
                  by_cases h : rMut.label = l <;> simp [h]

lemma evaluatedRules_subset {α : Type} (rules : List (VRule α)) :
    ∀ r ∈ evaluatedRules rules, r ∈ rules := by
  induction rules with
  | nil => simp [evaluatedRules]
  | cons r rest ih =>
      intro x hx
      cases happ : r.applyE with
      | error e =>
          rw [evaluatedRules, happ] at hx
          rcases List.mem_cons.mp hx with h | h
          · exact h ▸ List.mem_cons_self _ _
          · exact List.mem_cons_of_mem _ (ih x h)
      | ok p =>
          obtain ⟨b, rMut⟩ := p
          cases b with
          | true =>
              rw [evaluatedRules, happ] at hx
              rcases List.mem_cons.mp hx with h | h
              · exact h ▸ List.mem_cons_self _ _
              · exact List.mem_cons_of_mem _ (ih x h)
          | false =>
              simp only [evaluatedRules, happ] at hx
              cases hstop : rMut.stop_if_invalid with
              | true =>
                  rw [hstop] at hx
                  simp only [if_true] at hx
                  rcases List.mem_singleton.mp hx with h
                  exact h ▸ List.mem_cons_self _ _
              | false =>
                  rw [hstop] at hx
                  simp only [Bool.false_eq_true, if_false] at hx
                  rcases List.mem_cons.mp hx with h | h
                  · exact h ▸ List.mem_cons_self _ _
                  · exact List.mem_cons_of_mem _ (ih x h)

lemma runRules_all_pass {α : Type} (rules : List (VRule α)) (res : ValidationResult)
    (h : ∀ r ∈ rules, passesB r = true) : runRules rules res = res := by
  induction rules with
  | nil => simp [runRules]
  | cons r rest ih =>
      have hr : passesB r = true := h r (List.mem_cons_self _ _)
      cases happ : r.applyE with
      | error e => simp [passesB, happ] at hr
      | ok p =>
          obtain ⟨b, rMut⟩ := p
          cases b with
          | false => simp [passesB, happ] at hr
          | true =>
              simp only [runRules, happ]
              exact ih (fun x hx => h x (List.mem_cons_of_mem _ hx))

lemma exists_fail_errors_ne_nil {α : Type} (rules : List (VRule α))
    (res : ValidationResult) (h : ∃ r ∈ rules, failsB r = true) :
    (runRules rules res).errors ≠ [] := by
  induction rules generalizing res with
  | nil => rcases h with ⟨r, hr, _⟩; exact absurd hr (List.not_mem_nil r)
  | cons r rest ih =>
      cases happ : r.applyE with
      | error e =>
          simp only [runRules, happ]
          exact runRules_errors_ne_nil _ _ (addMsg_ne_nil _ _ _)
      | ok p =>
          obtain ⟨b, rMut⟩ := p
          cases b with
          | true =>
              simp only [runRules, happ]
              rcases h with ⟨x, hx, hfail⟩
              rcases List.mem_cons.mp hx with heq | hmem
              · subst heq; simp [failsB, happ] at hfail
              · exact ih _ ⟨x, hmem, hfail⟩
          | false =>
              simp only [runRules, happ]
              cases hstop : rMut.stop_if_invalid with
              | true => simp only [if_true]; exact addMsg_ne_nil _ _ _
              | false =>
                  simp only [Bool.false_eq_true, if_false]
                  exact runRules_errors_ne_nil _ _ (addMsg_ne_nil _ _ _)

lemma recordedMsgs_eq_filter {α : Type} (l : String) (lst : List (VRule α))
    (h : ∀ r ∈ lst, raisesB r = false) :
    recordedMsgs l lst =
      (lst.filter (fun r => failsB r && decide ((VRule.postApply r).label = l))).map
        (fun r => (VRule.postApply r).get_error_message) := by
  induction lst with
  | nil => simp [recordedMsgs]
  | cons r rest ih =>
      have hr : raisesB r = false := h r (List.mem_cons_self _ _)
      have hrest : ∀ x ∈ rest, raisesB x = false :=
        fun x hx => h x (List.mem_cons_of_mem _ hx)
      cases happ : r.applyE with
      | error e => simp [raisesB, happ] at hr
      | ok p =>
          obtain ⟨b, rMut⟩ := p
          cases b with
          | true =>
              have h1 : violationEntry r = Option.none := by simp [violationEntry, happ]
              have h2 : failsB r = false := by simp [failsB, happ]
              simp [recordedMsgs, h1, List.filter_cons, h2, ih hrest]
          | false =>
              have h1 : violationEntry r =
                  Option.some (rMut.label, rMut.get_error_message) := by
                simp [violationEntry, happ]
              have h2 : failsB r = true := by simp [failsB, happ]
              have h3 : VRule.postApply r = rMut := by simp [VRule.postApply, happ]
              by_cases hl : rMut.label = l
              · simp [recordedMsgs, h1, hl, List.filter_cons, h2, h3, ih hrest]
              · simp [recordedMsgs, h1, hl, List.filter_cons, h2, h3, ih hrest]

/-- Claim C1: for every rule list, validate returns a successful outcome
with an empty error mapping when every rule passes; when at least one
rule fails the outcome is unsuccessful; and (in the exception-free case)
the message list stored under each label is exactly the sequence of
error messages of the evaluated failing rules carrying that label, in
evaluation order — so two rules sharing a label both contribute, in the
order they were evaluated. -/
theorem c1_validate_aggregates_errors_per_label {α : Type} (rules : List (VRule α)) :
    ((∀ r ∈ rules, passesB r = true) →
        validateRules (Except.ok rules) = ⟨[]⟩ ∧
        (validateRules (Except.ok rules)).is_successful = true)
    ∧ ((∃ r ∈ rules, failsB r = true) →
        (validateRules (Except.ok rules)).is_successful = false)
    ∧ ((∀ r ∈ rules, raisesB r = false) →
        ∀ l, lookupMsgs (validateRules (Except.ok rules)).errors l =
          ((evaluatedRules rules).filter
              (fun r => failsB r && decide ((VRule.postApply r).label = l))).map
            (fun r => (VRule.postApply r).get_error_message)) := by
  refine ⟨fun h => ?_, fun h => ?_, fun h l => ?_⟩
  · have : runRules rules (⟨[]⟩ : ValidationResult) = ⟨[]⟩ :=
      runRules_all_pass rules ⟨[]⟩ h
    exact ⟨by simpa [validateRules] using this,
      by simp [validateRules, this, ValidationResult.is_successful]⟩
  · have hne : (runRules rules (⟨[]⟩ : ValidationResult)).errors ≠ [] :=
      exists_fail_errors_ne_nil rules ⟨[]⟩ h
    simp only [validateRules, ValidationResult.is_successful]
    exact List.isEmpty_eq_false.mpr hne
  · have step := runRules_lookup rules ⟨[]⟩ l
    simp only [validateRules]
    rw [step]
    have hev : ∀ x ∈ evaluatedRules rules, raisesB x = false :=
      fun x hx => h x (evaluatedRules_subset rules x hx)
    simpa [lookupMsgs] using recordedMsgs_eq_filter l (evaluatedRules rules) hev

/-- Concrete leaf rule used by witnesses: labelled A, passing. -/
def wPassA : VRule Nat :=
  VRule.leaf ⟨"A", Option.none, false, "Data is invalid.", RApply.ret true⟩

/-- Concrete leaf rule used by witnesses: labelled B, passing. -/
def wPassB : VRule Nat :=
  VRule.leaf ⟨"B", Option.none, false, "Data is invalid.", RApply.ret true⟩

/-- Concrete leaf rule used by witnesses: labelled A, failing with the
custom message fail-A. -/
def wFailA1 : VRule Nat :=
  VRule.leaf ⟨"A", Option.some "fail-A", false, "Data is invalid.", RApply.ret false⟩

/-- Concrete leaf rule used by witnesses: labelled A, failing with the
custom message fail-B. -/
def wFailA2 : VRule Nat :=
  VRule.leaf ⟨"A", Option.some "fail-B", false, "Data is invalid.", RApply.ret false⟩

/-- Witness for claim C1 at concrete inputs: a list whose two rules pass
yields the empty report; a list with two failing rules sharing label A
and one passing rule in between is unsuccessful and stores both
messages under label A in evaluation order. -/
theorem c1_witness :
    validateRules (Except.ok [wPassA, wPassB]) = (⟨[]⟩ : ValidationResult)
    ∧ (validateRules (Except.ok [wFailA1, wPassB, wFailA2])).is_successful = false
    ∧ lookupMsgs (validateRules (Except.ok [wFailA1, wPassB, wFailA2])).errors "A"
        = ["fail-A", "fail-B"] := by
  refine ⟨((c1_validate_aggregates_errors_per_label [wPassA, wPassB]).1 ?_).1,
    (c1_validate_aggregates_errors_per_label [wFailA1, wPassB, wFailA2]).2.1 ?_, ?_⟩
  · intro r hr
    rcases List.mem_cons.mp hr with h | h
    · subst h; rfl
    · rcases List.mem_cons.mp h with h2 | h2
      · subst h2; rfl
      · exact absurd h2 (List.not_mem_nil r)
  · exact ⟨wFailA1, List.mem_cons_self _ _, rfl⟩
  · have h3 := (c1_validate_aggregates_errors_per_label [wFailA1, wPassB, wFailA2]).2.2
    have hnr : ∀ r ∈ [wFailA1, wPassB, wFailA2], raisesB r = false := by
      intro r hr
      rcases List.mem_cons.mp hr with h | h
      · subst h; rfl
      · rcases List.mem_cons.mp h with h2 | h2
        · subst h2; rfl
        · rcases List.mem_cons.mp h2 with h4 | h4
          · subst h4; rfl
          · exact absurd h4 (List.not_mem_nil r)
    rw [h3 hnr "A"]
    rfl

/-- Concrete leaf rule used by counterexamples: labelled A, raising an
exception with text boom, with the stop flag set. -/
def wRaiseStopA : VRule Nat :=
  VRule.leaf ⟨"A", Option.none, true, "Data is invalid.", RApply.exn (PyErr.other "boom")⟩

/-- Concrete leaf rule used by counterexamples: labelled B, failing with
the custom message b-failed. -/
def wFailB : VRule Nat :=
  VRule.leaf ⟨"B", Option.some "b-failed", false, "Data is invalid.", RApply.ret false⟩

/-- Concrete leaf rule: labelled A, failing with the custom message
a-failed, with the stop flag set. -/
def wFailStopA : VRule Nat :=
  VRule.leaf ⟨"A", Option.some "a-failed", true, "Data is invalid.", RApply.ret false⟩

/-- Counterexample to claim C2: a rule with stop_if_invalid set fails by
raising an exception, yet the next listed rule is still evaluated — the
outcome carries the label B of the later rule, so validate did not stop
early. -/
theorem c2_counterexample :
    (validateRules (Except.ok [wRaiseStopA, wFailB])).errors
      = [("A", ["boom"]), ("B", ["b-failed"])]
    ∧ lookupMsgs (validateRules (Except.ok [wRaiseStopA, wFailB])).errors "B" ≠ [] := by
  exact ⟨rfl, by decide⟩

/-- Claim C2 as amended: a rule with the stop flag halts the pass only
when it fails by returning False — the remaining rules are then not
evaluated and the outcome is exactly the result annotated with that one
violation; when apply raises, the exception is recorded under the label
of the rule and evaluation continues with the remaining rules even if
the stop flag is set. -/
theorem c2_stop_only_on_false_return {α : Type} :
    (∀ (r : VRule α) (rest : List (VRule α)) (res : ValidationResult) (rMut : VRule α),
        r.applyE = Except.ok (false, rMut) → rMut.stop_if_invalid = true →
        runRules (r :: rest) res = res.annotate_rule_violation rMut)
    ∧ (∀ (r : VRule α) (rest : List (VRule α)) (res : ValidationResult) (e : PyErr),
        r.applyE = Except.error e →
        runRules (r :: rest) res = runRules rest (res.annotate_exception e (Option.some r))) := by
  constructor
  · intro r rest res rMut happ hstop
    simp [runRules, happ, hstop]
  · intro r rest res e happ
    simp [runRules, happ]

/-- Witness for the amended claim C2: a failing rule with the stop flag
stops the pass at once, and a raising rule with the stop flag does not
prevent the evaluation of the next rule. -/
theorem c2_witness :
    runRules [wFailStopA, wFailB] (⟨[]⟩ : ValidationResult)
      = ValidationResult.annotate_rule_violation ⟨[]⟩ wFailStopA
    ∧ runRules [wRaiseStopA, wFailB] (⟨[]⟩ : ValidationResult)
      = runRules [wFailB]
          (ValidationResult.annotate_exception ⟨[]⟩ (PyErr.other "boom") (Option.some wRaiseStopA)) := by
  exact ⟨(c2_stop_only_on_false_return (α := Nat)).1 wFailStopA [wFailB] ⟨[]⟩ wFailStopA rfl rfl,
    (c2_stop_only_on_false_return (α := Nat)).2 wRaiseStopA [wFailB] ⟨[]⟩ (PyErr.other "boom") rfl⟩

/-- Claim C4: when the rule-list factory raises, validate returns an
outcome whose error mapping holds exactly one entry, the sentinel key
get_rules mapped to the singleton list of the exception text, the
outcome is unsuccessful, and no rule is evaluated (the pass never
reaches the loop). -/
theorem c4_get_rules_failure_sentinel {α : Type} (e : PyErr) :
    validateRules (Except.error e : Except PyErr (List (VRule α)))
      = ⟨[("get_rules", [pyStr e])]⟩
    ∧ (validateRules (Except.error e : Except PyErr (List (VRule α)))).is_successful = false := by
  exact ⟨rfl, rfl⟩

/-- Concrete rule class whose instances always fail with its default
message. -/
def cFailChild : RuleClass Nat :=
  { run := fun _ _ => RApply.ret false, default_error_message := "child default message" }

/-- Concrete rule class whose instances always pass. -/
def cPassChild : RuleClass Nat :=
  { run := fun _ _ => RApply.ret true, default_error_message := "pass default message" }

/-- A RuleGroup whose only specification is the malformed entry None,
labelled G. -/
def gBadSpec : RuleGroup Nat :=
  { apply_to := 0
  , label := "G"
  , rules := [SpecEntry.none]
  , custom_error_message := Option.none
  , stop_if_invalid := false
  , failed_rule := Option.none }

/-- Counterexample to claim C5: a validator whose rule list holds a
RuleGroup with a malformed specification returns an outcome in which the
configuration-error message is recorded under the label of the group —
the signal is absorbed into the outcome mapping, not surfaced as a
distinct signal out of validate. -/
theorem c5_counterexample :
    validateRules (Except.ok [VRule.group gBadSpec])
      = ⟨[("G", [expected_rule_message "None"])]⟩
    ∧ lookupMsgs (validateRules (Except.ok [VRule.group gBadSpec])).errors "G" ≠ [] := by
  exact ⟨rfl, by decide⟩

/-- Claim C5 as amended: a malformed specification makes the group
itself raise InvalidRuleGroupException when applied (a distinct,
immediate signal at that level), but inside Validator.validate the
per-rule exception boundary catches the raise and records its text in
the outcome under the label of the group. -/
theorem c5_group_config_error_absorbed_by_validate {α : Type}
    (g : RuleGroup α) (err : PyErr) (h : g.applyE = Except.error err) :
    VRule.applyE (VRule.group g) = Except.error err
    ∧ validateRules (Except.ok [VRule.group g]) = ⟨[(g.label, [pyStr err])]⟩ := by
  constructor
  · simp [VRule.applyE, h]
  · simp [validateRules, runRules, VRule.applyE, h,
      ValidationResult.annotate_exception, VRule.label, addMsg]

/-- Witness for the amended claim C5 at the concrete malformed group:
direct application raises the configuration error, while a validation
pass records its message under the group label. -/
theorem c5_witness :
    VRule.applyE (VRule.group gBadSpec)
      = Except.error (PyErr.invalidRuleGroupException (expected_rule_message "None"))
    ∧ validateRules (Except.ok [VRule.group gBadSpec])
      = ⟨[("G", [pyStr (PyErr.invalidRuleGroupException (expected_rule_message "None"))])]⟩ :=
  c5_group_config_error_absorbed_by_validate gBadSpec
    (PyErr.invalidRuleGroupException (expected_rule_message "None")) rfl

/-- The error message a group reports after its apply call, the
observable the C6 claim speaks about. -/
def group_message_after_apply {α : Type} (g : RuleGroup α) : String :=
  match g.applyE with
  | Except.ok (_, gMut) => gMut.get_error_message
  | Except.error _ => g.get_error_message

/-- A RuleGroup constructed with the custom message CUSTOM whose only
child fails with its own default message. -/
def gCustomMsg : RuleGroup Nat :=
  { apply_to := 0
  , label := "L"
  , rules := [SpecEntry.cls cFailChild]
  , custom_error_message := Option.some "CUSTOM"
  , stop_if_invalid := false
  , failed_rule := Option.none }

/-- Counterexample to claim C6: a RuleGroup constructed with a custom
message does not report it once a child has failed — after apply, its
get_error_message returns the message of the failed child instead of the
custom one. -/
theorem c6_counterexample :
    gCustomMsg.custom_error_message = Option.some "CUSTOM"
    ∧ group_message_after_apply gCustomMsg = "child default message"
    ∧ "child default message" ≠ "CUSTOM" := by
  exact ⟨rfl, rfl, by decide⟩

/-- Claim C6 as amended: a non-empty custom message always wins for a
leaf rule, and for a RuleGroup only while no failed child is recorded;
once apply has recorded a failed child, the group delegates to the
message of that child; an empty custom message falls back to the
default. -/
theorem c6_custom_message_precedence {α : Type} :
    (∀ (r : ValidationRule) (m : String),
        r.custom_error_message = Option.some m → m ≠ "" →
        r.get_error_message = m)
    ∧ (∀ (g : RuleGroup α) (m : String),
        g.failed_rule = Option.none →
        g.custom_error_message = Option.some m → m ≠ "" →
        g.get_error_message = m)
    ∧ (∀ (g : RuleGroup α) (r : ValidationRule),
        g.failed_rule = Option.some r →
        g.get_error_message = r.get_error_message) := by
  refine ⟨fun r m hm hne => ?_, fun g m hf hm hne => ?_, fun g r hf => ?_⟩
  · simp [ValidationRule.get_error_message, pyOrStr, hm, hne]
  · simp [RuleGroup.get_error_message, pyOrStr, hf, hm, hne]
  · simp [RuleGroup.get_error_message, hf]

/-- Witness for the amended claim C6 at concrete rules: a leaf rule with
custom message keeps it, a group with no recorded failure keeps its
custom message, and a group with a recorded failed child reports the
child message. -/
theorem c6_witness :
    ValidationRule.get_error_message
        ⟨"A", Option.some "mine", false, "Data is invalid.", RApply.ret false⟩ = "mine"
    ∧ gCustomMsg.get_error_message = "CUSTOM"
    ∧ RuleGroup.get_error_message
        { gCustomMsg with
          failed_rule := Option.some ⟨"L", Option.none, false, "child default message", RApply.ret false⟩ }
      = "child default message" := by
  refine ⟨(c6_custom_message_precedence (α := Nat)).1 _ "mine" rfl (by decide),
    (c6_custom_message_precedence (α := Nat)).2.1 gCustomMsg "CUSTOM" rfl rfl (by decide),
    (c6_custom_message_precedence (α := Nat)).2.2 _
      ⟨"L", Option.none, false, "child default message", RApply.ret false⟩ rfl⟩

/-! Lemmas about the RuleGroup loop. -/

lemma applyAux_all_pass {α : Type} (g : RuleGroup α) (entries : List (SpecEntry α))
    (hwf : ∀ e ∈ entries, ∃ r, g.get_configured_rule e = Except.ok r)
    (h : ∀ e ∈ entries, ∀ r, g.get_configured_rule e = Except.ok r → r.apply = RApply.ret true) :
    g.applyAux entries = Except.ok (true, g) := by
  induction entries with
  | nil => rfl
  | cons e rest ih =>
      obtain ⟨r, hr⟩ := hwf e (List.mem_cons_self _ _)
      have hpass := h e (List.mem_cons_self _ _) r hr
      simp only [RuleGroup.applyAux, hr, hpass]
      exact ih (fun x hx => hwf x (List.mem_cons_of_mem _ hx))
        (fun x hx => h x (List.mem_cons_of_mem _ hx))

lemma applyAux_ok_true_all_pass {α : Type} (g : RuleGroup α)
    (entries : List (SpecEntry α)) (gOut : RuleGroup α)
    (h : g.applyAux entries = Except.ok (true, gOut)) :
    ∀ e ∈ entries, ∀ r, g.get_configured_rule e = Except.ok r → r.apply = RApply.ret true := by
  induction entries with
  | nil => intro e he; exact absurd he (List.not_mem_nil e)
  | cons e0 rest ih =>
      intro e he r hr
      cases hres : g.get_configured_rule e0 with
      | error err =>
          simp [RuleGroup.applyAux, hres] at h
      | ok r0 =>
          cases happ : r0.apply with
          | ret b =>
              cases b with
              | true =>
                  simp only [RuleGroup.applyAux, hres, happ] at h
                  rcases List.mem_cons.mp he with heq | hmem
                  · subst heq
                    rw [hres] at hr
                    rw [Except.ok.inj hr] at happ
                    exact happ
                  · exact ih h e hmem r hr
              | false =>
                  simp [RuleGroup.applyAux, hres, happ] at h
          | exn ex =>
              simp [RuleGroup.applyAux, hres, happ] at h

lemma applyAux_first_fail {α : Type} (g : RuleGroup α) :
    ∀ (pre : List (SpecEntry α)) (e : SpecEntry α) (post : List (SpecEntry α))
      (r : ValidationRule),
      (∀ e' ∈ pre, ∃ r', g.get_configured_rule e' = Except.ok r') →
      (∀ e' ∈ pre, ∀ r', g.get_configured_rule e' = Except.ok r' → r'.apply = RApply.ret true) →
      g.get_configured_rule e = Except.ok r →
      r.apply ≠ RApply.ret true →
      g.applyAux (pre ++ e :: post)
        = Except.ok (false, { g with failed_rule := Option.some r }) := by
  intro pre
  induction pre with
  | nil =>
      intro e post r _ _ hr hfail
      cases happ : r.apply with
      | ret b =>
          cases b with
          | true => exact absurd happ hfail
          | false => simp [RuleGroup.applyAux, hr, happ]
      | exn ex => simp [RuleGroup.applyAux, hr, happ]
  | cons e0 pre0 ih =>
      intro e post r hwf hpass hr hfail
      obtain ⟨r0, hr0⟩ := hwf e0 (List.mem_cons_self _ _)
      have hp0 := hpass e0 (List.mem_cons_self _ _) r0 hr0
      have step := ih e post r (fun x hx => hwf x (List.mem_cons_of_mem _ hx))
        (fun x hx => hpass x (List.mem_cons_of_mem _ hx)) hr hfail
      simp only [List.cons_append, RuleGroup.applyAux, hr0, hp0]
      exact step

/-- Claim C3: for a RuleGroup whose specifications all resolve, apply
returns True exactly when every resolved child passes; and when the
prefix of children passes and the next child fails by return value or by
raising, the group returns False with its failed-rule attribute set to
that child, so that its own get_error_message returns the message of the
first failing child. -/
theorem c3_rule_group_conjunction {α : Type} (g : RuleGroup α)
    (hwf : ∀ e ∈ g.rules, ∃ r, g.get_configured_rule e = Except.ok r) :
    (g.applyE = Except.ok (true, g) ↔
      (∀ e ∈ g.rules, ∀ r, g.get_configured_rule e = Except.ok r → r.apply = RApply.ret true))
    ∧ (∀ (pre : List (SpecEntry α)) (e : SpecEntry α) (post : List (SpecEntry α))
        (r : ValidationRule),
        g.rules = pre ++ e :: post →
        (∀ e' ∈ pre, ∀ r', g.get_configured_rule e' = Except.ok r' → r'.apply = RApply.ret true) →
        g.get_configured_rule e = Except.ok r →
        r.apply ≠ RApply.ret true →
        ∃ gMut, g.applyE = Except.ok (false, gMut)
          ∧ gMut.get_error_message = r.get_error_message) := by
  constructor
  · constructor
    · intro h
      exact applyAux_ok_true_all_pass g g.rules g h
    · intro h
      exact applyAux_all_pass g g.rules hwf h
  · intro pre e post r hsplit hpass hr hfail
    refine ⟨{ g with failed_rule := Option.some r }, ?_, ?_⟩
    · have hmain := applyAux_first_fail g pre e post r
        (fun x hx => hwf x (hsplit ▸ List.mem_append_left _ hx)) hpass hr hfail
      rw [← hsplit] at hmain
      exact hmain
    · simp [RuleGroup.get_error_message]

/-- A group over two bare-class specifications: a passing child followed
by a failing one. -/
def gPassFail : RuleGroup Nat :=
  { apply_to := 0
  , label := "L3"
  , rules := [SpecEntry.cls cPassChild, SpecEntry.cls cFailChild]
  , custom_error_message := Option.none
  , stop_if_invalid := false
  , failed_rule := Option.none }

/-- Witness for claim C3 at a concrete group: with a passing first child
and a failing second child, apply returns False and the group reports
the default message of the failing child. -/
theorem c3_witness :
    ∃ gMut, gPassFail.applyE = Except.ok (false, gMut)
      ∧ gMut.get_error_message = "child default message" := by
  have hwf : ∀ e ∈ gPassFail.rules, ∃ r, gPassFail.get_configured_rule e = Except.ok r := by
    intro e he
    rcases List.mem_cons.mp he with h | h
    · subst h; exact ⟨_, rfl⟩
    · rcases List.mem_cons.mp h with h2 | h2
      · subst h2; exact ⟨_, rfl⟩
      · exact absurd h2 (List.not_mem_nil e)
  have hpre : ∀ e' ∈ [SpecEntry.cls cPassChild], ∀ r',
      gPassFail.get_configured_rule e' = Except.ok r' → r'.apply = RApply.ret true := by
    intro e' he' r' hr'
    have hm : e' = SpecEntry.cls cPassChild := by simpa using he'
    subst hm
    rw [← Except.ok.inj hr']
    rfl
  exact (c3_rule_group_conjunction gPassFail hwf).2
    [SpecEntry.cls cPassChild] (SpecEntry.cls cFailChild) []
    (cFailChild.instantiate 0 "L3" Config.empty) rfl hpre rfl (by decide)

/-- Claim C7: inverting a rule negates the boolean returned by apply and
leaves the error message text unchanged. -/
theorem c7_invert_negates_apply (r : ValidationRule) (b : Bool)
    (h : r.apply = RApply.ret b) :
    r.invert.apply = RApply.ret (!b)
    ∧ r.invert.get_error_message = r.get_error_message := by
  constructor
  · simp [ValidationRule.invert, h]
  · simp [ValidationRule.invert, ValidationRule.get_error_message]

/-- Witness for claim C7 at a concrete rule: a passing rule with the
custom message mine fails after inversion and keeps the message. -/
theorem c7_witness :
    (ValidationRule.invert ⟨"A", Option.some "mine", false, "Data is invalid.", RApply.ret true⟩).apply
      = RApply.ret false
    ∧ (ValidationRule.invert ⟨"A", Option.some "mine", false, "Data is invalid.", RApply.ret true⟩).get_error_message
      = ValidationRule.get_error_message ⟨"A", Option.some "mine", false, "Data is invalid.", RApply.ret true⟩ :=
  c7_invert_negates_apply ⟨"A", Option.some "mine", false, "Data is invalid.", RApply.ret true⟩ true rfl

/-- Claim C9: entering a validator used as a scoped guard runs validate;
an unsuccessful outcome raises a ValidationException carrying exactly
that outcome (with the default message) and the guarded block never
runs; a successful outcome yields the validator itself, the block runs
on it, and exiting performs no action. -/
theorem c9_scoped_guard {α β : Type} (v : Validator α) (block : Validator α → β) :
    (v.validate.is_successful = false →
        withGuard v block = Except.error ⟨v.validate, "Data did not validate."⟩)
    ∧ (v.validate.is_successful = true →
        v.enter = EnterOutcome.entered v ∧ withGuard v block = Except.ok (block v))
    ∧ Validator.exit v = () := by
  refine ⟨fun h => ?_, fun h => ⟨?_, ?_⟩, rfl⟩
  · simp [withGuard, Validator.enter, h]
  · simp [Validator.enter, h]
  · simp [withGuard, Validator.enter, h]

/-- A concrete validator whose single rule fails. -/
def vFailing : Validator Nat := ⟨Except.ok [wFailB]⟩

/-- A concrete validator whose single rule passes. -/
def vPassing : Validator Nat := ⟨Except.ok [wPassA]⟩

/-- Witness for claim C9 at concrete validators: the failing one raises
the exception wrapping its outcome and the guarded block result never
appears; the passing one yields itself and the block result. -/
theorem c9_witness :
    withGuard vFailing (fun _ => (7 : Nat))
      = Except.error ⟨vFailing.validate, "Data did not validate."⟩
    ∧ withGuard vPassing (fun _ => (7 : Nat)) = Except.ok 7 := by
  exact ⟨(c9_scoped_guard vFailing (fun _ => (7 : Nat))).1 rfl,
    ((c9_scoped_guard vPassing (fun _ => (7 : Nat))).2.1 rfl).2⟩

/-- Claim C10: the negation operator mutates the rule object in place —
the address returned is the address passed in, the object now stored
there is the original with only its apply behaviour replaced by the
negation, its label, custom message and stop flag are unchanged, and a
second inversion restores the original object exactly. -/
theorem c10_invert_in_place (store : RuleStore) (i : Nat) (r : ValidationRule)
    (h : store[i]? = Option.some r) :
    (invert_in_place store i).2 = i
    ∧ (invert_in_place store i).1[i]? = Option.some r.invert
    ∧ r.invert.label = r.label
    ∧ r.invert.custom_error_message = r.custom_error_message
    ∧ r.invert.stop_if_invalid = r.stop_if_invalid
    ∧ (∀ b, r.apply = RApply.ret b → r.invert.apply = RApply.ret (!b))
    ∧ r.invert.invert = r := by
  have hlen : i < store.length := by
    obtain ⟨hlt, _⟩ := List.getElem?_eq_some.mp h
    exact hlt
  refine ⟨?_, ?_, rfl, rfl, rfl, ?_, ?_⟩
  · simp [invert_in_place, h]
  · simp [invert_in_place, h, List.getElem?_set_eq_of_lt _ hlen]
  · intro b hb
    simp [ValidationRule.invert, hb]
  · cases r with
    | mk label custom stop dflt app =>
        cases app with
        | ret b => simp [ValidationRule.invert]
        | exn e => simp [ValidationRule.invert]

/-- Witness for claim C10 on a one-rule store: inverting at address 0
returns address 0, the stored rule now fails where it passed, and its
other attributes are intact. -/
theorem c10_witness :
    (invert_in_place [⟨"A", Option.some "mine", true, "Data is invalid.", RApply.ret true⟩] 0).2 = 0
    ∧ (invert_in_place [⟨"A", Option.some "mine", true, "Data is invalid.", RApply.ret true⟩] 0).1[0]?
      = Option.some (ValidationRule.invert ⟨"A", Option.some "mine", true, "Data is invalid.", RApply.ret true⟩) := by
  have h := c10_invert_in_place
    [⟨"A", Option.some "mine", true, "Data is invalid.", RApply.ret true⟩] 0
    ⟨"A", Option.some "mine", true, "Data is invalid.", RApply.ret true⟩ rfl
  exact ⟨h.1, h.2.1⟩

/-- True when a group application outcome is a raised
InvalidRuleGroupException. -/
def is_invalid_rule_group_error {α : Type} : Except PyErr (Bool × RuleGroup α) → Bool
  | Except.error (PyErr.invalidRuleGroupException _) => true
  | _ => false

/-- A group over one entry, used to state target-independence. -/
def soloGroup {α : Type} (t : α) (lbl : String) (entry : SpecEntry α) : RuleGroup α :=
  { apply_to := t
  , label := lbl
  , rules := [entry]
  , custom_error_message := Option.none
  , stop_if_invalid := false
  , failed_rule := Option.none }

/-- A group whose only specification is a two-element sequence whose
second element is not a mapping — and whose first element is not a class
either. -/
def gBadPair : RuleGroup Nat :=
  soloGroup 0 "G2" (SpecEntry.seq [SeqElem.otherVal, SeqElem.otherVal])

/-- Counterexample to claim C8: this malformed specification is a
two-element sequence whose second element is not a mapping, yet applying
the group raises TypeError (from the issubclass call on the non-class
first element), not the dedicated InvalidRuleGroupException. -/
theorem c8_counterexample :
    gBadPair.applyE = Except.error (PyErr.typeError issubclass_type_error_message)
    ∧ is_invalid_rule_group_error gBadPair.applyE = false := by
  exact ⟨rfl, rfl⟩

/-- Claim C8 as amended: for every target, a sequence specification of
length other than two, a two-element sequence headed by a class whose
second element is not a mapping, the entry None, and a class entry not
subclassing ValidationRule all raise InvalidRuleGroupException when the
group is applied; but a two-element sequence whose first element is not
a class, and a bare entry that is neither None, a class, nor a sequence,
make the issubclass check raise TypeError instead. -/
theorem c8_malformed_spec_raises {α : Type} (t : α) (lbl : String) :
    (∀ elems : List (SeqElem α), elems.length ≠ 2 →
        (soloGroup t lbl (SpecEntry.seq elems)).applyE
          = Except.error (PyErr.invalidRuleGroupException rule_group_format_message))
    ∧ (∀ (c : RuleClass α) (e1 : SeqElem α), (∀ cfg, e1 ≠ SeqElem.dict cfg) →
        (soloGroup t lbl (SpecEntry.seq [SeqElem.ruleCls c, e1])).applyE
          = Except.error (PyErr.invalidRuleGroupException rule_group_format_message))
    ∧ (∀ e1 : SeqElem α,
        (soloGroup t lbl (SpecEntry.seq [SeqElem.otherCls, e1])).applyE
          = Except.error (PyErr.invalidRuleGroupException rule_group_format_message))
    ∧ ((soloGroup t lbl SpecEntry.none).applyE
          = Except.error (PyErr.invalidRuleGroupException (expected_rule_message "None")))
    ∧ (∀ nm : String, (soloGroup t lbl (SpecEntry.nonRuleCls nm)).applyE
          = Except.error (PyErr.invalidRuleGroupException (expected_rule_message nm)))
    ∧ (∀ nm : String, (soloGroup t lbl (SpecEntry.nonClass nm)).applyE
          = Except.error (PyErr.typeError issubclass_type_error_message))
    ∧ (∀ (cfg : Config α) (e1 : SeqElem α),
        (soloGroup t lbl (SpecEntry.seq [SeqElem.dict cfg, e1])).applyE
          = Except.error (PyErr.typeError issubclass_type_error_message))
    ∧ (∀ e1 : SeqElem α,
        (soloGroup t lbl (SpecEntry.seq [SeqElem.otherVal, e1])).applyE
          = Except.error (PyErr.typeError issubclass_type_error_message)) := by
  refine ⟨?_, ?_, fun e1 => rfl, rfl, fun nm => rfl, fun nm => rfl,
    fun cfg e1 => rfl, fun e1 => rfl⟩
  · intro elems hlen
    match elems with
    | [] => rfl
    | [e0] => rfl
    | [e0, e1] => exact absurd rfl hlen
    | e0 :: e1 :: e2 :: es => rfl
  · intro c e1 hne
    match e1 with
    | SeqElem.ruleCls c2 => rfl
    | SeqElem.otherCls => rfl
    | SeqElem.dict cfg => exact absurd rfl (hne cfg)
    | SeqElem.otherVal => rfl

/-- Witness for the amended claim C8 at concrete inputs: a one-element
sequence raises the format error and a pair headed by a conforming class
with a non-dict second element raises it too. -/
theorem c8_witness :
    (soloGroup (0 : Nat) "W" (SpecEntry.seq [])).applyE
      = Except.error (PyErr.invalidRuleGroupException rule_group_format_message)
    ∧ (soloGroup (0 : Nat) "W" (SpecEntry.seq [SeqElem.ruleCls cPassChild, SeqElem.otherVal])).applyE
      = Except.error (PyErr.invalidRuleGroupException rule_group_format_message) := by
  exact ⟨(c8_malformed_spec_raises (0 : Nat) "W").1 [] (by decide),
    (c8_malformed_spec_raises (0 : Nat) "W").2.1 cPassChild SeqElem.otherVal
      (fun cfg h => by cases h)⟩

end Pyvaru
